import Mathlib

/-!
Verification of the prediction_markets collector core against its
natural-language specification.

The development shallowly embeds the Go source:

* `internal/engine/orderbook/orderbook.go` — the per-token order book.  The
  `google/btree` trees (keyed by `Level.Price` only) are embedded as lists
  sorted by the side comparator; `ReplaceOrInsert`, `Delete`, `Get` and the
  truncated `Ascend` of `GetTopN` become the ordered-map operations
  `replaceOrInsert`, `deleteKey`, `getKey`, `ascendTopN` on those lists.
* `internal/price/price.go` and `internal/polymarket/price/price.go` — the two
  `Price.UnmarshalJSON` fixed-point decoders.  Bytes are `Nat` values; Go
  byte subtraction wraps mod 256 (`byteMinusZero`) and `int64` arithmetic
  wraps mod 2^64 (`wrap64`).
* `internal/polymarket/websocket/client.go` — `Client.ParseMessage`.
  `json.Unmarshal` outcomes are inputs of the embedding (`RawFrame`).
* the engine router / token worker / snapshot writer (`engine` package) and
  the Polymarket adapter (`polymarket` package) loop bodies.
* `internal/polymarket/clob/client.go` and the Kalshi `api` client —
  `GetAllMarkets` cursor pagination, with HTTP fetch and base64 decode
  supplied as function parameters and a fuel bound on the page loop.
-/

namespace PredictionMarkets

/-- Two-complement wrap of Go `int64` arithmetic: reduce mod 2^64 into
`[-2^63, 2^63)`. -/
def wrap64 (n : Int) : Int :=
  (n + 9223372036854775808) % 18446744073709551616 - 9223372036854775808

/-- Two-complement wrap of a Go `int16` conversion: reduce mod 2^16 into
`[-2^15, 2^15)`. -/
def wrap16 (n : Int) : Int :=
  (n + 32768) % 65536 - 32768

/-- `Level` from `orderbook.go`: a price level `{Price, Size, UpdatedAt}`.
Prices and sizes are `int64` fixed-point values (scale 10^6); the event time
is a timestamp where `0` plays the role of Go `time.Time`'s zero value. -/
structure Level where
  price : Int
  size : Int
  updatedAt : Nat
deriving DecidableEq, Repr

/-- `lessDesc` from `orderbook.go`, on the price key: bids compare by
`a.Price > b.Price` (highest first). -/
def bidLt (a b : Int) : Bool := decide (b < a)

/-- `lessAsc` from `orderbook.go`, on the price key: asks compare by
`a.Price < b.Price` (lowest first). -/
def askLt (a b : Int) : Bool := decide (a < b)

/-- `btree.ReplaceOrInsert` on the sorted-list embedding of a btree whose
comparator `lt` looks only at the price: insert `x` at its sort position,
replacing the level with the same price if present. -/
def replaceOrInsert (lt : Int → Int → Bool) (x : Level) : List Level → List Level
  | [] => [x]
  | y :: ys =>
    if lt x.price y.price then x :: y :: ys
    else if lt y.price x.price then y :: replaceOrInsert lt x ys
    else x :: ys

/-- `btree.Delete` on the sorted-list embedding: remove the level whose price
equals `p` (under `lt`), if any. -/
def deleteKey (lt : Int → Int → Bool) (p : Int) : List Level → List Level
  | [] => []
  | y :: ys =>
    if lt p y.price then y :: ys
    else if lt y.price p then y :: deleteKey lt p ys
    else ys

/-- `btree.Get` on the sorted-list embedding: find the level whose price
equals `p` (under `lt`). -/
def getKey (lt : Int → Int → Bool) (p : Int) : List Level → Option Level
  | [] => none
  | y :: ys =>
    if lt p y.price then none
    else if lt y.price p then getKey lt p ys
    else some y

/-- The `Orderbook` struct from `orderbook.go`: per-token bid and ask trees,
embedded as their sorted level sequences (bids descending, asks ascending). -/
structure Orderbook where
  bids : List Level
  asks : List Level
deriving DecidableEq, Repr

/-- `orderbook.New()`: a new empty order book. -/
def Orderbook.new : Orderbook := ⟨[], []⟩

/-- The body of `Orderbook.Set` on one side tree: if `size <= 0` the level is
removed, otherwise the absolute size is stored at the price. -/
def setTree (lt : Int → Int → Bool) (p sz : Int) (t : Nat) (tree : List Level) :
    List Level :=
  if sz ≤ 0 then deleteKey lt p tree
  else replaceOrInsert lt ⟨p, sz, t⟩ tree

/-- The `newSize` computation of `Orderbook.Update`: the delta is added to the
existing size (Go `int64` addition, hence `wrap64`), or taken as the new size
when the level is absent. -/
def updateNewSize (lt : Int → Int → Bool) (p delta : Int) (tree : List Level) : Int :=
  match getKey lt p tree with
  | some existing => wrap64 (existing.size + delta)
  | none => delta

/-- The body of `Orderbook.Update` on one side tree: a resulting size `<= 0`
removes the level, otherwise the level is upserted with the new size. -/
def updateTree (lt : Int → Int → Bool) (p delta : Int) (t : Nat) (tree : List Level) :
    List Level :=
  if updateNewSize lt p delta tree ≤ 0 then deleteKey lt p tree
  else replaceOrInsert lt ⟨p, updateNewSize lt p delta tree, t⟩ tree

/-- `Orderbook.Set(p, size, side, eventTime)`: dispatch on the side string as
`getTree` does (`"bids"`/`"asks"`, anything else is an invalid-side error). -/
def Orderbook.set (ob : Orderbook) (p sz : Int) (side : String) (eventTime : Nat) :
    Except String Orderbook :=
  if side = "bids" then .ok { ob with bids := setTree bidLt p sz eventTime ob.bids }
  else if side = "asks" then .ok { ob with asks := setTree askLt p sz eventTime ob.asks }
  else .error ("invalid side: " ++ side)

/-- `Orderbook.Update(p, delta, side, eventTime)`: dispatch on the side string
as `getTree` does. -/
def Orderbook.update (ob : Orderbook) (p delta : Int) (side : String) (eventTime : Nat) :
    Except String Orderbook :=
  if side = "bids" then .ok { ob with bids := updateTree bidLt p delta eventTime ob.bids }
  else if side = "asks" then .ok { ob with asks := updateTree askLt p delta eventTime ob.asks }
  else .error ("invalid side: " ++ side)

/-- The `tree.Ascend` callback loop of `Orderbook.GetTopN`: each visited level
is appended, and iteration continues while `len(levels) < n` (the length check
happens after the append; `count` is the number already appended). -/
def ascendTopN (n : Int) (count : Nat) : List Level → List Level
  | [] => []
  | y :: ys => y :: (if ((count + 1 : Nat) : Int) < n then ascendTopN n (count + 1) ys else [])

/-- Result of `Orderbook.GetTopN`: `errored` is the invalid-side error
return; `panicked` is the runtime panic of
`make([]Level, 0, min(n, tree.Len()))` when that capacity is negative
(Go's builtin `min`, so negative exactly when `n < 0`), which fires after
the side dispatch but before `Ascend` runs; `levels` is the normal return. -/
inductive TopNResult where
  | errored (e : String)
  | panicked
  | levels (ls : List Level)
deriving DecidableEq, Repr

/-- `Orderbook.GetTopN(side, n)`: side dispatch as in `getTree`, then the
`make` call whose negative capacity panics for `n < 0`, then the in-order
traversal truncated by the `len(levels) < n` callback condition. -/
def Orderbook.getTopN (ob : Orderbook) (side : String) (n : Int) : TopNResult :=
  if side = "bids" then
    if min n (ob.bids.length : Int) < 0 then .panicked
    else .levels (ascendTopN n 0 ob.bids)
  else if side = "asks" then
    if min n (ob.asks.length : Int) < 0 then .panicked
    else .levels (ascendTopN n 0 ob.asks)
  else .errored ("invalid side: " ++ side)

/-- One `Set` or `Update` call, as recorded for replaying a whole operation
sequence against one book. -/
inductive Op where
  | set (p sz : Int) (side : String) (t : Nat)
  | update (p delta : Int) (side : String) (t : Nat)

/-- Apply one operation; a call that returns an error (invalid side) leaves
the book unchanged, exactly as the Go methods return before mutating. -/
def applyOp (ob : Orderbook) : Op → Orderbook
  | .set p sz side t =>
    match ob.set p sz side t with
    | .ok ob2 => ob2
    | .error _ => ob
  | .update p delta side t =>
    match ob.update p delta side t with
    | .ok ob2 => ob2
    | .error _ => ob

/-- Replay a sequence of operations against one book starting from empty. -/
def runOps (ops : List Op) : Orderbook := ops.foldl applyOp Orderbook.new

/-- Every stored level of `l` has positive size. -/
def sizesPos (l : List Level) : Prop := ∀ x ∈ l, 0 < x.size

/-- Well-formedness of a book: each side is strictly sorted by its own
comparator (bids descending, asks ascending) and all sizes are positive. -/
def Orderbook.WF (ob : Orderbook) : Prop :=
  ob.bids.Pairwise (fun a b => bidLt a.price b.price = true) ∧
  ob.asks.Pairwise (fun a b => askLt a.price b.price = true) ∧
  sizesPos ob.bids ∧ sizesPos ob.asks

/-- The size stored at price `p` in one side tree, or `0` when the level is
absent (the `existing.Size` / not-found branch of `Orderbook.Update`). -/
def keySize (lt : Int → Int → Bool) (p : Int) (l : List Level) : Int :=
  match getKey lt p l with
  | some e => e.size
  | none => 0

/-- The size stored at price `p` on a side of the book, or `0` when absent. -/
def sizeAt (ob : Orderbook) (side : String) (p : Int) : Int :=
  if side = "bids" then keySize bidLt p ob.bids else keySize askLt p ob.asks

/-- Go byte subtraction `data[i] - '0'`: unsigned 8-bit arithmetic, so the
difference wraps mod 256 (adding 208 = 256 - 48). -/
def byteMinusZero (d : Nat) : Nat := (d + 208) % 256

/-- The quote-stripping prologue shared by both `Price.UnmarshalJSON`
implementations: when `len(data) > 2` and the first and last byte are `'"'`
(34), take `data[1 : len(data)-1]`; otherwise the bytes are assumed to be a
raw number. -/
def stripQuotes (data : List Nat) : List Nat :=
  if 2 < data.length ∧ data.head? = some 34 ∧ data.getLast? = some 34 then
    (data.drop 1).dropLast
  else data

/-- First loop of `internal/price.Price.UnmarshalJSON`: consume bytes up to a
`'.'` (46) or the end, accumulating `res = res*10 + int64(data[i]-'0')*10^6`
in int64; returns the accumulator and the unconsumed remainder. -/
def priceIntLoop : List Nat → Int → Int × List Nat
  | [], res => (res, [])
  | d :: rest, res =>
    if d = 46 then (res, d :: rest)
    else priceIntLoop rest (wrap64 (res * 10 + (byteMinusZero d : Int) * 1000000))

/-- Second loop of `internal/price.Price.UnmarshalJSON`: for each byte after
the dot, first `mult /= 10`, then `res += int64(data[i]-'0') * mult`; after
the sixth fractional digit `mult` reaches 0, so later digits are truncated. -/
def priceFracLoop : List Nat → Int → Int → Int
  | [], _, res => res
  | d :: rest, mult, res =>
    priceFracLoop rest (mult / 10) (wrap64 (res + (byteMinusZero d : Int) * (mult / 10)))

/-- The value `internal/price.Price.UnmarshalJSON` stores into `*p`: strip
quotes, run the integer-digit loop, and if it stopped on a `'.'` run the
fractional loop with `mult = PriceScale = 10^6`. -/
def priceUnmarshal (data : List Nat) : Int :=
  match priceIntLoop (stripQuotes data) 0 with
  | (res, d :: rest) => if d = 46 then priceFracLoop rest 1000000 res else res
  | (res, []) => res

/-- The loop of `internal/polymarket/price.Price.UnmarshalJSON`: a `'.'` byte
is skipped with `continue`; every other byte is accumulated as
`res = res*10 + int64(data[i]-'0')*10^6` — the decimal point has no effect
on the scaling. -/
def polymarketPriceLoop : List Nat → Int → Int
  | [], res => res
  | d :: rest, res =>
    if d = 46 then polymarketPriceLoop rest res
    else polymarketPriceLoop rest (wrap64 (res * 10 + (byteMinusZero d : Int) * 1000000))

/-- The value `internal/polymarket/price.Price.UnmarshalJSON` stores. -/
def polymarketPriceUnmarshal (data : List Nat) : Int :=
  polymarketPriceLoop (stripQuotes data) 0

/-- `internal/price.Price.UnmarshalJSON` with its error return: the body has
no failing return statement — it always stores a value and returns nil. -/
def priceUnmarshalJSON (data : List Nat) : Except String Int :=
  .ok (priceUnmarshal data)

/-- `internal/polymarket/price.Price.UnmarshalJSON` with its error return:
likewise, no failing return statement exists. -/
def polymarketPriceUnmarshalJSON (data : List Nat) : Except String Int :=
  .ok (polymarketPriceUnmarshal data)

/-- `OrderSummary` from the websocket client: one `{price, size}` pair of
decimal strings. -/
structure OrderSummary where
  price : String
  size : String
deriving DecidableEq, Repr

/-- The `Book` event payload of the websocket client. -/
structure Book where
  assetID : String
  market : String
  timestamp : String
  hash : String
  buys : List OrderSummary
  sells : List OrderSummary
deriving DecidableEq, Repr

/-- The `PriceChange` event payload of the websocket client. -/
structure PriceChange where
  assetID : String
  price : String
  size : String
  side : String
  hash : String
  bestBid : String
  bestAsk : String
deriving DecidableEq, Repr

/-- The `TickSizeChange` event payload of the websocket client. -/
structure TickSizeChange where
  assetID : String
  market : String
  oldTickSize : String
  newTickSize : String
  side : String
  timestamp : String
deriving DecidableEq, Repr

/-- The `LastTradePrice` event payload of the websocket client. -/
structure LastTradePrice where
  assetID : String
  feeRateBPS : String
  market : String
  price : String
  side : String
  size : String
  timestamp : String
deriving DecidableEq, Repr

/-- The `BestBidAsk` event payload of the websocket client. -/
structure BestBidAsk where
  marketConditionID : String
  assetID : String
  bestBid : String
  bestAsk : String
  spread : String
  timestamp : String
deriving DecidableEq, Repr

/-- The nested `EventMessage` payload of the websocket client. -/
structure EventMessage where
  id : String
  ticker : String
  slug : String
  title : String
  description : String
deriving DecidableEq, Repr

/-- The `NewMarket` event payload of the websocket client. -/
structure NewMarket where
  marketID : String
  question : String
  marketConditionID : String
  slug : String
  description : String
  assetsIDs : List String
  outcomes : List String
  eventMessage : EventMessage
  timestamp : String
deriving DecidableEq, Repr

/-- The `MarketResolved` event payload of the websocket client. -/
structure MarketResolved where
  marketID : String
  question : String
  marketConditionID : String
  timestamp : String
  eventMessage : EventMessage
deriving DecidableEq, Repr

/-- The `Message` struct returned by `Client.ParseMessage`: the common
`event_type` plus one pointer per variant (nil pointers are `none`). -/
structure Message where
  eventType : String
  book : Option Book := none
  priceChange : Option PriceChange := none
  bestBidAsk : Option BestBidAsk := none
  tickSizeChange : Option TickSizeChange := none
  lastTradePrice : Option LastTradePrice := none
  newMarket : Option NewMarket := none
  marketResolved : Option MarketResolved := none
deriving DecidableEq, Repr

/-- Event type constants of the websocket client. -/
def bookEvent : String := "book"

def priceChangeEvent : String := "price_change"

def tickSizeChangeEvent : String := "tick_size_change"

def bestBidAskEvent : String := "best_bid_ask"

def newMarketEvent : String := "new_market"

def marketResolvedEvent : String := "market_resolved"

/-- A raw websocket frame, represented by its JSON-decoding outcomes: `base`
is the `event_type` of the base unmarshal (or `none` when that unmarshal
fails), and each payload field is the result of `json.Unmarshal` of the full
frame into that variant struct (`none` = decode failure).  The embedding
takes these outcomes as given instead of modelling Go's JSON decoder. -/
structure RawFrame where
  base : Option String
  book : Option Book
  priceChange : Option PriceChange
  tickSizeChange : Option TickSizeChange
  bestBidAsk : Option BestBidAsk
  newMarket : Option NewMarket
  marketResolved : Option MarketResolved

/-- `Client.ParseMessage` from the websocket client: switch on the base
message's `event_type`, decode the matching payload, and build the returned
`Message`.  Note the `EventType` the source puts into the returned struct:
only the `book` and `price_change` cases carry their own event constant; the
`tick_size_change`, `best_bid_ask`, `new_market` and `market_resolved` cases
all set `EventType: PriceChangeEvent`, exactly as the Go code does. -/
def parseMessage (f : RawFrame) : Except String Message :=
  match f.base with
  | none => .error "couldnt parse base message"
  | some et =>
    if et = bookEvent then
      match f.book with
      | none => .error "couldnt parse book event"
      | some b => .ok { eventType := bookEvent, book := some b }
    else if et = priceChangeEvent then
      match f.priceChange with
      | none => .error "couldnt parse price change event"
      | some pc => .ok { eventType := priceChangeEvent, priceChange := some pc }
    else if et = tickSizeChangeEvent then
      match f.tickSizeChange with
      | none => .error "couldnt parse tick size change event"
      | some tsc => .ok { eventType := priceChangeEvent, tickSizeChange := some tsc }
    else if et = bestBidAskEvent then
      match f.bestBidAsk with
      | none => .error "couldnt parse best bid ask event"
      | some bba => .ok { eventType := priceChangeEvent, bestBidAsk := some bba }
    else if et = newMarketEvent then
      match f.newMarket with
      | none => .error "couldnt parse new market event"
      | some nm => .ok { eventType := priceChangeEvent, newMarket := some nm }
    else if et = marketResolvedEvent then
      match f.marketResolved with
      | none => .error "couldnt parse market resolved event"
      | some mr => .ok { eventType := priceChangeEvent, marketResolved := some mr }
    else .error "couldnt find event type"

/-- The engine `Update` struct (part_017): one level change routed by token. -/
structure EngineUpdate where
  price : Int
  size : Int
  tokenID : String
  side : String
  eventTime : Nat
  isDelta : Bool
deriving DecidableEq, Repr

/-- Outcome of one iteration of the adapter's read loop. -/
inductive ReadLoopStep where
  | stop (err : String)
  | continued (sends : List EngineUpdate)
deriving DecidableEq, Repr

/-- One iteration of the read loop in `Polymarket.Start` (part_015): the
select checks `ctx.Done()` first and returns `ctx.Err()`; a failed
`ReadMessage` is logged and its error returned; a successfully read message
is only logged at debug level — the body carries a `TODO: Process message`
comment and constructs no engine update, so nothing is sent to the engine. -/
def polymarketReadLoopIter (ctxDone : Bool) (readResult : Except String (List Nat)) :
    ReadLoopStep :=
  if ctxDone then .stop "context cancelled"
  else
    match readResult with
    | .error e => .stop e
    | .ok _ => .continued []

/-- Whether one select iteration leaves its loop. -/
inductive LoopDecision where
  | exit
  | continueLoop
deriving DecidableEq, Repr

/-- One iteration of the engine router select loop (`Client.Start`,
part_017): the `ctx.Done()` case logs and returns; otherwise one update is
received and dispatched to (or dropped at) its token worker. -/
def routerLoopIter (ctxDone : Bool) : LoopDecision :=
  if ctxDone then .exit else .continueLoop

/-- One iteration of the token worker select loop (`OrderbookWorker.start`,
part_017): the `ctx.Done()` case logs and returns (`none`) without draining
the queue; otherwise one update is applied to the book — `Update` or `Set`
by `IsDelta`, with a zero event time replaced by the current time; the
methods' error results are discarded, so an invalid side leaves the book
unchanged. -/
def workerLoopIter (ctxDone : Bool) (ob : Orderbook) (u : EngineUpdate) (now : Nat) :
    Option Orderbook :=
  if ctxDone then none
  else
    some (applyOp ob
      (if u.isDelta then
        .update u.price u.size u.side (if u.eventTime = 0 then now else u.eventTime)
      else
        .set u.price u.size u.side (if u.eventTime = 0 then now else u.eventTime)))

/-- One iteration of the market-sync select loop (`Polymarket.syncLoop`,
part_015): the ticker case re-syncs and continues; the `ctx.Done()` case
logs "market sync stopped" but contains no return statement, so the loop
continues iterating as well. -/
def syncLoopIter (ctxDone : Bool) : LoopDecision :=
  if ctxDone then .continueLoop else .continueLoop

/-- A snapshot returned by `Client.TakeSnapshots` (part_017): token plus the
top-N levels of each side in best-first order. -/
structure Snapshot where
  tokenID : String
  bids : List Level
  asks : List Level
deriving DecidableEq, Repr

/-- `store.InsertOrderBookSnapshotBatchParams`: one row of the snapshot
batch (`ingested_at` is filled by the database default and not written by
the core). -/
structure SnapRow where
  time : Nat
  tokenID : String
  side : String
  level : Int
  price : Int
  size : Int
deriving DecidableEq, Repr

/-- The per-side row loop of `SnapshotWriter.writeSnapshots` (part_016):
`for level, lvl := range side` appends a row carrying the level's
`UpdatedAt` (or `now` when zero), the snapshot's token, the side label, the
0-based index cast to `int16`, and the raw price and size. -/
def sideRows (now : Nat) (tokenID side : String) (levels : List Level) : List SnapRow :=
  levels.enum.map fun pr =>
    { time := if pr.2.updatedAt = 0 then now else pr.2.updatedAt
      tokenID := tokenID
      side := side
      level := wrap16 pr.1
      price := pr.2.price
      size := pr.2.size }

/-- The row accumulation of `writeSnapshots`: `params` grows snapshot by
snapshot, bid rows then ask rows. -/
def writeSnapshotRows (now : Nat) (snaps : List Snapshot) : List SnapRow :=
  snaps.foldl
    (fun params snap =>
      params ++ sideRows now snap.tokenID "bid" snap.bids
        ++ sideRows now snap.tokenID "ask" snap.asks)
    []

/-- `SnapshotWriter.writeSnapshots` (part_016): the batch handed to
`InsertOrderBookSnapshotBatch` on this tick, or `none` when no insert is
issued (the function returns early on an empty snapshot list and again on an
empty batch). -/
def writeSnapshots (now : Nat) (snaps : List Snapshot) : Option (List SnapRow) :=
  if snaps.isEmpty then none
  else
    if (writeSnapshotRows now snaps).isEmpty then none
    else some (writeSnapshotRows now snaps)

/-- One side's rows exactly as claim C3 words them: one row per level,
carrying `time = updated_at` (or now when zero), the tokenID, the side, the
level's exact 0-based index in the returned best-first order, and the price
and size. -/
def claimSideRows (now : Nat) (tokenID side : String) (levels : List Level) :
    List SnapRow :=
  levels.enum.map fun pr =>
    { time := if pr.2.updatedAt = 0 then now else pr.2.updatedAt
      tokenID := tokenID
      side := side
      level := (pr.1 : Int)
      price := pr.2.price
      size := pr.2.size }

/-- The whole batch as claim C3 words it: the side rows of each snapshot. -/
def claimRows (now : Nat) (snaps : List Snapshot) : List SnapRow :=
  snaps.flatMap fun snap =>
    claimSideRows now snap.tokenID "bid" snap.bids ++
      claimSideRows now snap.tokenID "ask" snap.asks

/-- A market of the Polymarket CLOB catalog (fields relevant here). -/
structure ClobMarket where
  conditionID : String
  description : String
deriving DecidableEq, Repr

/-- A CLOB `MarketPage`: `data` plus the optional `next_cursor`. -/
structure ClobMarketPage where
  data : List ClobMarket
  nextCursor : Option String

/-- The pagination loop of the CLOB `Client.GetAllMarkets`
(internal/polymarket/clob/client.go): fetch the page for the current cursor
and append its markets; when the page carries a next cursor, the base64
decode of that cursor DISCARDS the error
(`decodedNextCursor, _ := base64.StdEncoding.DecodeString(...)`) and
compares whatever bytes were produced against "-1"; a nil cursor breaks.
`fetch` stands for `GetMarkets`, `decode` for `base64.StdEncoding.
DecodeString` returning (bytes decoded so far, optional error); `fuel`
bounds the embedded loop. -/
def clobLoop (fetch : Option String → Except String ClobMarketPage)
    (decode : String → String × Option String) :
    Nat → String → List ClobMarket → Except String (List ClobMarket)
  | 0, _, _ => .error "out of fuel"
  | n + 1, cursor, acc =>
    match fetch (some cursor) with
    | .error e => .error ("couldnt get markets for next cursor " ++ cursor ++ ": " ++ e)
    | .ok page =>
      match page.nextCursor with
      | some c =>
        if (decode c).1 = "-1" then .ok (acc ++ page.data)
        else clobLoop fetch decode n c (acc ++ page.data)
      | none => .ok (acc ++ page.data)

/-- CLOB `Client.GetAllMarkets`: first page, early return when it has no
next cursor, then the loop. -/
def clobGetAllMarkets (fetch : Option String → Except String ClobMarketPage)
    (decode : String → String × Option String) (fuel : Nat) :
    Except String (List ClobMarket) :=
  match fetch none with
  | .error e => .error ("couldnt get first page of markets: " ++ e)
  | .ok firstPage =>
    match firstPage.nextCursor with
    | none => .ok firstPage.data
    | some c => clobLoop fetch decode fuel c firstPage.data

/-- A Kalshi market (fields relevant here). -/
structure KalshiMarket where
  ticker : String
deriving DecidableEq, Repr

/-- A Kalshi `MarketPage`: markets plus the cursor string (empty = none). -/
structure KalshiMarketPage where
  markets : List KalshiMarket
  cursor : String

/-- The pagination loop of the Kalshi `Client.GetAllMarkets` (part_018):
append the fetched page's markets; on a non-empty cursor, base64-decode it
and RETURN the decode error when it fails (the Go code also returns the
markets gathered so far next to that error; the embedding keeps the error
side); on the "-1" sentinel or an empty cursor, stop. -/
def kalshiLoop (fetch : String → Except String KalshiMarketPage)
    (decode : String → String × Option String) :
    Nat → String → List KalshiMarket → Except String (List KalshiMarket)
  | 0, _, _ => .error "out of fuel"
  | n + 1, cursor, acc =>
    match fetch cursor with
    | .error e => .error ("couldnt get markets for cursor: " ++ e)
    | .ok page =>
      if page.cursor ≠ "" then
        match (decode page.cursor).2 with
        | some e => .error ("couldnt decode next cursor: " ++ e)
        | none =>
          if (decode page.cursor).1 = "-1" then .ok (acc ++ page.markets)
          else kalshiLoop fetch decode n page.cursor (acc ++ page.markets)
      else .ok (acc ++ page.markets)

/-- Kalshi `Client.GetAllMarkets`: first page, then the loop. -/
def kalshiGetAllMarkets (fetch : String → Except String KalshiMarketPage)
    (decode : String → String × Option String) (fuel : Nat) :
    Except String (List KalshiMarket) :=
  match fetch "" with
  | .error e => .error ("couldnt get first page of markets: " ++ e)
  | .ok firstPage => kalshiLoop fetch decode fuel firstPage.cursor firstPage.markets

/-- Concrete CLOB page oracle for the C8 run: the first page points at
cursor "x1", the "x1" page points at the undecodable cursor "bad", and the
"bad" page ends pagination. -/
def c8Fetch : Option String → Except String ClobMarketPage
  | none => .ok ⟨[⟨"m1", "d1"⟩], some "x1"⟩
  | some c =>
    if c = "x1" then .ok ⟨[⟨"m2", "d2"⟩], some "bad"⟩
    else if c = "bad" then .ok ⟨[⟨"m3", "d3"⟩], none⟩
    else .error "404"

/-- Concrete base64 decoder outcome for the C8 run: "bad" fails to decode
(producing no bytes and an error); every other cursor decodes to itself. -/
def c8Decode (s : String) : String × Option String :=
  if s = "bad" then ("", some "illegal base64 data") else (s, none)

/-- Concrete Kalshi page oracle for the C8 contrast run: the first page
points at "ok1", whose page carries the undecodable cursor "bad". -/
def c8KalshiFetch (c : String) : Except String KalshiMarketPage :=
  if c = "" then .ok ⟨[⟨"k1"⟩], "ok1"⟩
  else if c = "ok1" then .ok ⟨[⟨"k2"⟩], "bad"⟩
  else .ok ⟨[], ""⟩

theorem mem_replaceOrInsert {lt : Int → Int → Bool} (x z : Level) :
    ∀ l : List Level, z ∈ replaceOrInsert lt x l → z = x ∨ z ∈ l := by
  intro l
  induction l with
  | nil => intro h; simp only [replaceOrInsert, List.mem_singleton] at h; exact Or.inl h
  | cons y ys ih =>
    intro h
    simp only [replaceOrInsert] at h
    split at h
    · exact (List.mem_cons.mp h).elim Or.inl Or.inr
    · split at h
      · rcases List.mem_cons.mp h with hz | hz
        · exact Or.inr (List.mem_cons.mpr (Or.inl hz))
        · rcases ih hz with hz2 | hz2
          · exact Or.inl hz2
          · exact Or.inr (List.mem_cons.mpr (Or.inr hz2))
      · rcases List.mem_cons.mp h with hz | hz
        · exact Or.inl hz
        · exact Or.inr (List.mem_cons.mpr (Or.inr hz))

theorem pairwise_replaceOrInsert {lt : Int → Int → Bool}
    (htrans : ∀ a b c, lt a b = true → lt b c = true → lt a c = true)
    (hconn : ∀ a b, lt a b = false → lt b a = false → a = b)
    (x : Level) :
    ∀ l : List Level, l.Pairwise (fun a b => lt a.price b.price = true) →
      (replaceOrInsert lt x l).Pairwise (fun a b => lt a.price b.price = true) := by
  intro l
  induction l with
  | nil => intro _; simp [replaceOrInsert]
  | cons y ys ih =>
    intro h
    rw [List.pairwise_cons] at h
    obtain ⟨hy, hys⟩ := h
    simp only [replaceOrInsert]
    split
    case isTrue h1 =>
      refine List.Pairwise.cons ?_ (List.Pairwise.cons hy hys)
      intro z hz
      rcases List.mem_cons.mp hz with rfl | hz
      · exact h1
      · exact htrans _ _ _ h1 (hy z hz)
    case isFalse h1 =>
      split
      case isTrue h2 =>
        refine List.Pairwise.cons ?_ (ih hys)
        intro z hz
        rcases mem_replaceOrInsert x z ys hz with rfl | hz
        · exact h2
        · exact hy z hz
      case isFalse h2 =>
        have hpq : y.price = x.price :=
          hconn _ _ (by simpa using h2) (by simpa using h1)
        refine List.Pairwise.cons ?_ hys
        intro z hz
        have hz2 := hy z hz
        rwa [hpq] at hz2

theorem deleteKey_sublist (lt : Int → Int → Bool) (p : Int) :
    ∀ l : List Level, (deleteKey lt p l).Sublist l := by
  intro l
  induction l with
  | nil => simp [deleteKey]
  | cons y ys ih =>
    simp only [deleteKey]
    split
    · exact List.Sublist.refl _
    · split
      · exact List.Sublist.cons₂ y ih
      · exact List.Sublist.cons y (List.Sublist.refl ys)

theorem sizesPos_replaceOrInsert {lt : Int → Int → Bool} {x : Level} {l : List Level}
    (hx : 0 < x.size) (h : sizesPos l) : sizesPos (replaceOrInsert lt x l) := by
  intro z hz
  rcases mem_replaceOrInsert x z l hz with rfl | hz
  · exact hx
  · exact h z hz

theorem sizesPos_deleteKey {lt : Int → Int → Bool} {p : Int} {l : List Level}
    (h : sizesPos l) : sizesPos (deleteKey lt p l) :=
  fun z hz => h z ((deleteKey_sublist lt p l).subset hz)

theorem pairwise_setTree {lt : Int → Int → Bool}
    (htrans : ∀ a b c, lt a b = true → lt b c = true → lt a c = true)
    (hconn : ∀ a b, lt a b = false → lt b a = false → a = b)
    (p sz : Int) (t : Nat) (l : List Level)
    (h : l.Pairwise (fun a b => lt a.price b.price = true)) :
    (setTree lt p sz t l).Pairwise (fun a b => lt a.price b.price = true) := by
  unfold setTree
  split
  · exact List.Pairwise.sublist (deleteKey_sublist lt p l) h
  · exact pairwise_replaceOrInsert htrans hconn _ l h

theorem sizesPos_setTree {lt : Int → Int → Bool} (p sz : Int) (t : Nat) (l : List Level)
    (h : sizesPos l) : sizesPos (setTree lt p sz t l) := by
  unfold setTree
  split
  case isTrue => exact sizesPos_deleteKey h
  case isFalse hpos => exact sizesPos_replaceOrInsert (show (0 : Int) < sz by omega) h

theorem pairwise_updateTree {lt : Int → Int → Bool}
    (htrans : ∀ a b c, lt a b = true → lt b c = true → lt a c = true)
    (hconn : ∀ a b, lt a b = false → lt b a = false → a = b)
    (p delta : Int) (t : Nat) (l : List Level)
    (h : l.Pairwise (fun a b => lt a.price b.price = true)) :
    (updateTree lt p delta t l).Pairwise (fun a b => lt a.price b.price = true) := by
  unfold updateTree
  split
  · exact List.Pairwise.sublist (deleteKey_sublist lt p l) h
  · exact pairwise_replaceOrInsert htrans hconn _ l h

theorem sizesPos_updateTree {lt : Int → Int → Bool} (p delta : Int) (t : Nat)
    (l : List Level) (h : sizesPos l) : sizesPos (updateTree lt p delta t l) := by
  unfold updateTree
  split
  case isTrue => exact sizesPos_deleteKey h
  case isFalse hpos =>
    exact sizesPos_replaceOrInsert (show (0 : Int) < updateNewSize lt p delta l by omega) h

theorem bidLt_trans : ∀ a b c, bidLt a b = true → bidLt b c = true → bidLt a c = true := by
  intro a b c
  simp only [bidLt, decide_eq_true_eq]
  omega

theorem bidLt_conn : ∀ a b, bidLt a b = false → bidLt b a = false → a = b := by
  intro a b
  simp only [bidLt, decide_eq_false_iff_not]
  omega

theorem askLt_trans : ∀ a b c, askLt a b = true → askLt b c = true → askLt a c = true := by
  intro a b c
  simp only [askLt, decide_eq_true_eq]
  omega

theorem askLt_conn : ∀ a b, askLt a b = false → askLt b a = false → a = b := by
  intro a b
  simp only [askLt, decide_eq_false_iff_not]
  omega

theorem WF_new : Orderbook.new.WF := by
  refine ⟨List.Pairwise.nil, List.Pairwise.nil, ?_, ?_⟩ <;> intro z hz <;> simp [Orderbook.new] at hz

theorem WF_set {ob : Orderbook} (p sz : Int) (side : String) (t : Nat) (h : ob.WF) :
    ∀ ob2, ob.set p sz side t = .ok ob2 → ob2.WF := by
  intro ob2 heq
  obtain ⟨hb, ha, hbp, hap⟩ := h
  unfold Orderbook.set at heq
  by_cases h1 : side = "bids"
  · simp [h1] at heq
    subst heq
    exact ⟨pairwise_setTree bidLt_trans bidLt_conn p sz t _ hb, ha,
      sizesPos_setTree p sz t _ hbp, hap⟩
  · by_cases h2 : side = "asks"
    · simp [h1, h2] at heq
      subst heq
      exact ⟨hb, pairwise_setTree askLt_trans askLt_conn p sz t _ ha,
        hbp, sizesPos_setTree p sz t _ hap⟩
    · simp [h1, h2] at heq

theorem WF_update {ob : Orderbook} (p delta : Int) (side : String) (t : Nat) (h : ob.WF) :
    ∀ ob2, ob.update p delta side t = .ok ob2 → ob2.WF := by
  intro ob2 heq
  obtain ⟨hb, ha, hbp, hap⟩ := h
  unfold Orderbook.update at heq
  by_cases h1 : side = "bids"
  · simp [h1] at heq
    subst heq
    exact ⟨pairwise_updateTree bidLt_trans bidLt_conn p delta t _ hb, ha,
      sizesPos_updateTree p delta t _ hbp, hap⟩
  · by_cases h2 : side = "asks"
    · simp [h1, h2] at heq
      subst heq
      exact ⟨hb, pairwise_updateTree askLt_trans askLt_conn p delta t _ ha,
        hbp, sizesPos_updateTree p delta t _ hap⟩
    · simp [h1, h2] at heq

theorem WF_applyOp {ob : Orderbook} (op : Op) (h : ob.WF) : (applyOp ob op).WF := by
  cases op with
  | set p sz side t =>
    simp only [applyOp]
    cases heq : ob.set p sz side t with
    | ok ob2 => exact WF_set p sz side t h ob2 heq
    | error e => exact h
  | update p delta side t =>
    simp only [applyOp]
    cases heq : ob.update p delta side t with
    | ok ob2 => exact WF_update p delta side t h ob2 heq
    | error e => exact h

theorem WF_foldl (ops : List Op) :
    ∀ ob : Orderbook, ob.WF → (ops.foldl applyOp ob).WF := by
  induction ops with
  | nil => intro ob h; exact h
  | cons op rest ih =>
    intro ob h
    exact ih (applyOp ob op) (WF_applyOp op h)

theorem WF_runOps (ops : List Op) : (runOps ops).WF :=
  WF_foldl ops Orderbook.new WF_new

/-- Claim C1: for every sequence of set/update operations (any mix of sides,
prices, sizes and deltas) applied to one book starting from empty, the bid
levels read in sort order are strictly decreasing in price, the ask levels are
strictly increasing in price (so no two levels on one side share a price), and
every stored level has size > 0. -/
theorem orderbook_mutation_invariant (ops : List Op) :
    (runOps ops).bids.Pairwise (fun a b => b.price < a.price) ∧
    (runOps ops).asks.Pairwise (fun a b => a.price < b.price) ∧
    (∀ l ∈ (runOps ops).bids, 0 < l.size) ∧
    (∀ l ∈ (runOps ops).asks, 0 < l.size) := by
  obtain ⟨h1, h2, h3, h4⟩ := WF_runOps ops
  refine ⟨h1.imp ?_, h2.imp ?_, h3, h4⟩
  · intro a b hab
    simpa [bidLt] using hab
  · intro a b hab
    simpa [askLt] using hab

theorem wrap64_eq_self {n : Int}
    (h1 : -9223372036854775808 ≤ n) (h2 : n < 9223372036854775808) :
    wrap64 n = n := by
  unfold wrap64
  omega

theorem wrap64_add_left (a b : Int) : wrap64 (wrap64 a + b) = wrap64 (a + b) := by
  unfold wrap64
  omega

theorem wrap64_add_right (a b : Int) : wrap64 (a + wrap64 b) = wrap64 (a + b) := by
  unfold wrap64
  omega

theorem bidLt_irrefl : ∀ x, bidLt x x = false := by
  intro x
  simp [bidLt]

theorem askLt_irrefl : ∀ x, askLt x x = false := by
  intro x
  simp [askLt]

theorem getKey_replaceOrInsert {lt : Int → Int → Bool} (hirr : ∀ x, lt x x = false)
    (x : Level) :
    ∀ l : List Level, getKey lt x.price (replaceOrInsert lt x l) = some x := by
  intro l
  induction l with
  | nil => simp [replaceOrInsert, getKey, hirr]
  | cons y ys ih =>
    simp only [replaceOrInsert]
    by_cases h1 : lt x.price y.price
    · rw [if_pos h1]
      simp [getKey, hirr]
    · rw [if_neg h1]
      by_cases h2 : lt y.price x.price
      · rw [if_pos h2]
        simp only [getKey]
        rw [if_neg (by simpa using h1), if_pos h2]
        exact ih
      · rw [if_neg h2]
        simp [getKey, hirr]

theorem replaceOrInsert_collapse {lt : Int → Int → Bool} (hirr : ∀ x, lt x x = false)
    (x z : Level) (hp : z.price = x.price) :
    ∀ l : List Level,
      replaceOrInsert lt z (replaceOrInsert lt x l) = replaceOrInsert lt z l := by
  intro l
  induction l with
  | nil => simp [replaceOrInsert, hp, hirr]
  | cons y ys ih =>
    by_cases h1 : lt x.price y.price
    · conv_lhs => rw [replaceOrInsert, if_pos h1]
      rw [replaceOrInsert, if_neg (by rw [hp, hirr]; simp),
        if_neg (by rw [hp, hirr]; simp)]
      conv_rhs => rw [replaceOrInsert, if_pos (by rwa [hp])]
    · by_cases h2 : lt y.price x.price
      · conv_lhs => rw [replaceOrInsert, if_neg h1, if_pos h2]
        rw [replaceOrInsert, if_neg (by rw [hp]; simpa using h1), if_pos (by rwa [hp])]
        conv_rhs => rw [replaceOrInsert, if_neg (by rw [hp]; simpa using h1),
          if_pos (by rwa [hp])]
        rw [ih]
      · conv_lhs => rw [replaceOrInsert, if_neg h1, if_neg h2]
        rw [replaceOrInsert, if_neg (by rw [hp, hirr]; simp),
          if_neg (by rw [hp, hirr]; simp)]
        conv_rhs => rw [replaceOrInsert, if_neg (by rw [hp]; simpa using h1),
          if_neg (by rw [hp]; simpa using h2)]

theorem ascendTopN_eq_take (n : Int) :
    ∀ (l : List Level) (c : Nat), ascendTopN n c l = l.take (max (n - c) 1).toNat := by
  intro l
  induction l with
  | nil => intro c; simp [ascendTopN]
  | cons y ys ih =>
    intro c
    simp only [ascendTopN]
    by_cases hc : ((c + 1 : Nat) : Int) < n
    · rw [if_pos hc, ih (c + 1)]
      have h1 : (max (n - (c : Int)) 1).toNat = (n - (c : Int)).toNat := by
        rw [max_eq_left (by push_cast at hc ⊢; omega)]
      have h2 : (max (n - ((c + 1 : Nat) : Int)) 1).toNat = (n - (c : Int)).toNat - 1 := by
        rw [max_eq_left (by push_cast at hc ⊢; omega)]
        push_cast
        omega
      rw [h1, h2]
      have h3 : (n - (c : Int)).toNat = ((n - (c : Int)).toNat - 1) + 1 := by
        push_cast at hc
        omega
      rw [h3, List.take_succ_cons]
      simp
    · rw [if_neg hc]
      have h1 : (max (n - (c : Int)) 1).toNat = 1 := by
        rw [max_eq_right (by push_cast at hc ⊢; omega)]
        rfl
      rw [h1]
      rfl

theorem updateNewSize_eq_some {lt : Int → Int → Bool} {p delta : Int} {l : List Level}
    {e : Level} (hg : getKey lt p l = some e) :
    updateNewSize lt p delta l = wrap64 (e.size + delta) := by
  unfold updateNewSize
  rw [hg]

theorem updateNewSize_eq_none {lt : Int → Int → Bool} {p delta : Int} {l : List Level}
    (hg : getKey lt p l = none) : updateNewSize lt p delta l = delta := by
  unfold updateNewSize
  rw [hg]

theorem updateTree_eq_insert {lt : Int → Int → Bool} {p delta : Int} {t : Nat}
    {l : List Level} (h : ¬ updateNewSize lt p delta l ≤ 0) :
    updateTree lt p delta t l = replaceOrInsert lt ⟨p, updateNewSize lt p delta l, t⟩ l := by
  unfold updateTree
  rw [if_neg h]

theorem updateTree_assoc {lt : Int → Int → Bool} (hirr : ∀ x, lt x x = false)
    (p a b : Int) (t1 t2 : Nat) (l : List Level)
    (ha1 : -9223372036854775808 ≤ a) (ha2 : a < 9223372036854775808)
    (hmid : 0 < wrap64 (keySize lt p l + a))
    (hfin : 0 < wrap64 (keySize lt p l + a + b)) :
    updateTree lt p b t2 (updateTree lt p a t1 l) =
      updateTree lt p (wrap64 (a + b)) t2 l := by
  cases hg : getKey lt p l with
  | none =>
    have hs0 : keySize lt p l = 0 := by simp [keySize, hg]
    rw [hs0, zero_add] at hmid hfin
    have hni : updateNewSize lt p a l = a := updateNewSize_eq_none hg
    have hno2 : updateNewSize lt p (wrap64 (a + b)) l = wrap64 (a + b) :=
      updateNewSize_eq_none hg
    have hapos : 0 < a := by rwa [wrap64_eq_self ha1 ha2] at hmid
    have hinner : updateTree lt p a t1 l = replaceOrInsert lt ⟨p, a, t1⟩ l := by
      rw [updateTree_eq_insert (show ¬ updateNewSize lt p a l ≤ 0 by rw [hni]; omega), hni]
    rw [hinner]
    have hget2 : getKey lt p (replaceOrInsert lt ⟨p, a, t1⟩ l) = some ⟨p, a, t1⟩ :=
      getKey_replaceOrInsert hirr ⟨p, a, t1⟩ l
    have hn2 : updateNewSize lt p b (replaceOrInsert lt ⟨p, a, t1⟩ l) = wrap64 (a + b) :=
      updateNewSize_eq_some hget2
    rw [updateTree_eq_insert (by rw [hn2]; omega), hn2]
    rw [updateTree_eq_insert (by rw [hno2]; omega), hno2]
    exact replaceOrInsert_collapse hirr ⟨p, a, t1⟩ ⟨p, wrap64 (a + b), t2⟩ rfl l
  | some e =>
    have hs0 : keySize lt p l = e.size := by simp [keySize, hg]
    rw [hs0] at hmid hfin
    have hni : updateNewSize lt p a l = wrap64 (e.size + a) := updateNewSize_eq_some hg
    have hinner : updateTree lt p a t1 l =
        replaceOrInsert lt ⟨p, wrap64 (e.size + a), t1⟩ l := by
      rw [updateTree_eq_insert (show ¬ updateNewSize lt p a l ≤ 0 by rw [hni]; omega), hni]
    rw [hinner]
    have hget2 : getKey lt p (replaceOrInsert lt ⟨p, wrap64 (e.size + a), t1⟩ l) =
        some ⟨p, wrap64 (e.size + a), t1⟩ :=
      getKey_replaceOrInsert hirr ⟨p, wrap64 (e.size + a), t1⟩ l
    have hn2 : updateNewSize lt p b (replaceOrInsert lt ⟨p, wrap64 (e.size + a), t1⟩ l) =
        wrap64 (e.size + a + b) := by
      rw [updateNewSize_eq_some hget2]
      exact wrap64_add_left (e.size + a) b
    have hrhsn : updateNewSize lt p (wrap64 (a + b)) l = wrap64 (e.size + a + b) := by
      rw [updateNewSize_eq_some hg, wrap64_add_right, add_assoc]
    rw [updateTree_eq_insert (by rw [hn2]; omega), hn2]
    rw [updateTree_eq_insert (by rw [hrhsn]; omega), hrhsn]
    exact replaceOrInsert_collapse hirr ⟨p, wrap64 (e.size + a), t1⟩
      ⟨p, wrap64 (e.size + a + b), t2⟩ rfl l

/-- Claim C6 counterexample: on a book holding one bid level, `GetTopN` with
`n = 0` returns that level, not the empty list the claim requires (the
`Ascend` callback appends before it checks `len(levels) < n`). -/
theorem getTopN_zero_not_empty :
    Orderbook.getTopN ⟨[⟨500000, 10, 0⟩], []⟩ "bids" 0 = .levels [⟨500000, 10, 0⟩] ∧
    Orderbook.getTopN ⟨[⟨500000, 10, 0⟩], []⟩ "bids" 0 ≠ .levels [] := by
  constructor
  · rfl
  · decide

/-- Claim C6 (amended): for every book, valid side and every `n ≥ 0`,
`GetTopN` returns the first `min(max(n,1), len)` levels of that side in
stored (best-first) order — exactly `min(n, len)` levels for `n ≥ 1` as
claimed, but for `n = 0` on a nonempty side it returns one level (the
best), not an empty list. -/
theorem getTopN_returns_take (ob : Orderbook) (side : String) (n : Int)
    (hside : side = "bids" ∨ side = "asks") (hn : 0 ≤ n) :
    ob.getTopN side n =
      .levels ((if side = "bids" then ob.bids else ob.asks).take (max n 1).toNat) := by
  have hcap : ∀ len : Nat, ¬ min n (len : Int) < 0 := fun len => by
    simpa using le_min hn (Int.natCast_nonneg len)
  rcases hside with rfl | rfl <;>
    simp [Orderbook.getTopN, hcap, ascendTopN_eq_take]

/-- Witness for the amended C6 theorem at a one-level book with `n = 0`. -/
theorem getTopN_returns_take_witness :
    (("bids" : String) = "bids" ∨ ("bids" : String) = "asks") ∧ ((0 : Int) ≤ 0) ∧
    Orderbook.getTopN ⟨[⟨500000, 10, 0⟩], []⟩ "bids" 0 =
      .levels ((if ("bids" : String) = "bids"
            then [(⟨500000, 10, 0⟩ : Level)] else []).take (max (0 : Int) 1).toNat) :=
  ⟨Or.inl rfl, le_refl 0,
    getTopN_returns_take ⟨[⟨500000, 10, 0⟩], []⟩ "bids" 0 (Or.inl rfl) (le_refl 0)⟩

/-- Claim C7: `Update` is associative in deltas — applying `update(p, a, t1)`
then `update(p, b, t2)` to any book equals the single call
`update(p, a + b, t2)` (with Go int64 wrap-around made explicit), provided the
side is valid, `a` is an int64 value, and neither the intermediate stored size
nor the cumulative size is `≤ 0` (so neither call removes the level). -/
theorem update_delta_assoc (ob : Orderbook) (p a b : Int) (side : String) (t1 t2 : Nat)
    (hside : side = "bids" ∨ side = "asks")
    (ha1 : -9223372036854775808 ≤ a) (ha2 : a < 9223372036854775808)
    (hmid : 0 < wrap64 (sizeAt ob side p + a))
    (hfin : 0 < wrap64 (sizeAt ob side p + a + b)) :
    (match ob.update p a side t1 with
      | .ok ob1 => ob1.update p b side t2
      | .error e => .error e) = ob.update p (wrap64 (a + b)) side t2 := by
  rcases hside with rfl | rfl
  · have h := updateTree_assoc bidLt_irrefl p a b t1 t2 ob.bids ha1 ha2
      (by simpa [sizeAt] using hmid) (by simpa [sizeAt] using hfin)
    simp [Orderbook.update, h]
  · have h := updateTree_assoc askLt_irrefl p a b t1 t2 ob.asks ha1 ha2
      (by simpa [sizeAt] using hmid) (by simpa [sizeAt] using hfin)
    simp [Orderbook.update, h]

/-- Witness for the C7 theorem: two delta updates at price 1 on the empty
bid side (deltas 2 then 3) equal the single delta update by 5. -/
theorem update_delta_assoc_witness :
    (("bids" : String) = "bids" ∨ ("bids" : String) = "asks") ∧
    (-9223372036854775808 ≤ (2 : Int)) ∧ ((2 : Int) < 9223372036854775808) ∧
    0 < wrap64 (sizeAt Orderbook.new "bids" 1 + 2) ∧
    0 < wrap64 (sizeAt Orderbook.new "bids" 1 + 2 + 3) ∧
    (match Orderbook.new.update 1 2 "bids" 1 with
      | .ok ob1 => ob1.update 1 3 "bids" 2
      | .error e => .error e) = Orderbook.new.update 1 (wrap64 (2 + 3)) "bids" 2 :=
  ⟨Or.inl rfl, by decide, by decide, by decide, by decide,
    update_delta_assoc Orderbook.new 1 2 3 "bids" 1 2 (Or.inl rfl)
      (by decide) (by decide) (by decide) (by decide)⟩

/-- Claim C4: evaluation at the claim's own inputs.  The `internal/price`
decoder meets the claimed formula — unquoted `0.25` gives 250000 and quoted
`"0.1234567"` truncates to 123456 — but the `internal/polymarket/price`
decoder does not: on the same unquoted `0.25` it stores 25000000 (it skips
the decimal point and treats every digit as an integer digit), not the
250000 the claim requires of each decoder. -/
theorem price_decoders_at_claim_inputs :
    priceUnmarshal [48, 46, 50, 53] = 250000 ∧
    priceUnmarshal [34, 48, 46, 49, 50, 51, 52, 53, 54, 55, 34] = 123456 ∧
    polymarketPriceUnmarshal [48, 46, 50, 53] = 25000000 ∧
    polymarketPriceUnmarshal [48, 46, 50, 53] ≠ 250000 := by
  refine ⟨?_, ?_, ?_, ?_⟩ <;> decide

/-- Claim C10: neither `Price.UnmarshalJSON` ever returns an error — for
every input byte string (empty, non-numeric or otherwise malformed included)
both decoders store some value and return nil; the error return is
unreachable. -/
theorem price_unmarshal_never_errors (data : List Nat) :
    (∃ v, priceUnmarshalJSON data = .ok v) ∧
    (∃ v, polymarketPriceUnmarshalJSON data = .ok v) :=
  ⟨⟨priceUnmarshal data, rfl⟩, ⟨polymarketPriceUnmarshal data, rfl⟩⟩

/-- Claim C5: evaluation at a `tick_size_change` frame whose payload decodes
successfully — `ParseMessage` populates the `TickSizeChange` variant but
returns `EventType = "price_change"`, not the frame's event type
`"tick_size_change"` as the claim requires (the `best_bid_ask`,
`new_market` and `market_resolved` cases mislabel the same way). -/
theorem parseMessage_mislabels_tick_size_change :
    parseMessage
        ⟨some "tick_size_change", none, none,
          some ⟨"a1", "m1", "0.01", "0.001", "buy", "1700000000"⟩,
          none, none, none⟩ =
      .ok { eventType := "price_change",
            tickSizeChange := some ⟨"a1", "m1", "0.01", "0.001", "buy", "1700000000"⟩ } ∧
    ("price_change" : String) ≠ "tick_size_change" := by
  constructor
  · rfl
  · decide

/-- Claim C2: evaluation at a successfully read message — one iteration of
the adapter's read loop sends no update to the engine at all (its body is a
debug log plus a TODO), while the claim requires exactly one `Update` with
`is_delta = false` per `price_change` message.  The bytes stand for any
successfully read `price_change` frame. -/
theorem adapter_read_loop_sends_nothing :
    polymarketReadLoopIter false (.ok [123, 34, 101, 118, 125]) = .continued [] ∧
    ([] : List EngineUpdate).length ≠ 1 := by
  constructor
  · rfl
  · decide

/-- Claim C9: evaluation under a cancelled context — the engine router
iteration exits and every token worker iteration exits without touching its
book or queue, but the market-sync loop's `ctx.Done()` case only logs
"market sync stopped" without returning, so that loop continues to iterate,
contradicting the claim that every loop exits. -/
theorem cancellation_loop_behavior :
    routerLoopIter true = .exit ∧
    (∀ ob u now, workerLoopIter true ob u now = none) ∧
    syncLoopIter true = .continueLoop ∧
    LoopDecision.continueLoop ≠ LoopDecision.exit := by
  refine ⟨rfl, fun ob u now => rfl, rfl, by decide⟩

theorem wrap16_coe_eq_self {i : Nat} (h : i < 32768) : wrap16 (i : Int) = (i : Int) := by
  unfold wrap16
  omega

theorem sideRows_eq_claimSideRows (now : Nat) (tokenID side : String)
    (levels : List Level) (h : levels.length ≤ 32768) :
    sideRows now tokenID side levels = claimSideRows now tokenID side levels := by
  unfold sideRows claimSideRows
  apply List.map_congr_left
  intro pr hpr
  obtain ⟨i, lvl⟩ := pr
  rw [List.enum_eq_zip_range] at hpr
  have hi : i < levels.length := List.mem_range.mp (List.of_mem_zip hpr).1
  simp only
  rw [wrap16_coe_eq_self (by omega)]

theorem writeSnapshotRows_eq_claim (now : Nat) :
    ∀ snaps : List Snapshot,
      (∀ s ∈ snaps, s.bids.length ≤ 32768 ∧ s.asks.length ≤ 32768) →
      ∀ acc : List SnapRow,
        snaps.foldl
          (fun params snap =>
            params ++ sideRows now snap.tokenID "bid" snap.bids
              ++ sideRows now snap.tokenID "ask" snap.asks)
          acc = acc ++ claimRows now snaps := by
  intro snaps
  induction snaps with
  | nil => intro _ acc; simp [claimRows]
  | cons s rest ih =>
    intro hb acc
    simp only [List.foldl_cons]
    rw [ih (fun x hx => hb x (List.mem_cons.mpr (Or.inr hx)))]
    rw [sideRows_eq_claimSideRows now s.tokenID "bid" s.bids
      (hb s (List.mem_cons.mpr (Or.inl rfl))).1]
    rw [sideRows_eq_claimSideRows now s.tokenID "ask" s.asks
      (hb s (List.mem_cons.mpr (Or.inl rfl))).2]
    simp [claimRows, List.append_assoc]

/-- Claim C3: on a tick, the batch handed to the bulk insert is exactly one
row per level of each side of each snapshot, with `time = updated_at` (or
now when zero), the tokenID, the side, the 0-based index in returned order,
and the price and size; when that batch is empty no insert is issued.  The
hypothesis bounds each side by 2^15 levels so the `int16(level)` cast of the
source is lossless. -/
theorem writeSnapshots_matches_claim (now : Nat) (snaps : List Snapshot)
    (hdepth : ∀ s ∈ snaps, s.bids.length ≤ 32768 ∧ s.asks.length ≤ 32768) :
    writeSnapshots now snaps =
      if claimRows now snaps = [] then none else some (claimRows now snaps) := by
  unfold writeSnapshots
  by_cases hs : snaps.isEmpty
  · rw [if_pos hs]
    obtain rfl : snaps = [] := List.isEmpty_iff.mp hs
    simp [claimRows]
  · rw [if_neg hs]
    have hrows : writeSnapshotRows now snaps = claimRows now snaps := by
      unfold writeSnapshotRows
      rw [writeSnapshotRows_eq_claim now snaps hdepth []]
      simp
    rw [hrows]
    by_cases hr : (claimRows now snaps).isEmpty
    · rw [if_pos hr, if_pos (List.isEmpty_iff.mp hr)]
    · rw [if_neg hr, if_neg (fun h => hr (List.isEmpty_iff.mpr h))]

/-- Witness for the C3 theorem at the spec's S5 example: one token with two
bid levels produces exactly the two claimed rows. -/
theorem writeSnapshots_matches_claim_witness :
    (∀ s ∈ [(⟨"T", [⟨510000, 10000000, 7⟩, ⟨500000, 20000000, 7⟩], []⟩ : Snapshot)],
      s.bids.length ≤ 32768 ∧ s.asks.length ≤ 32768) ∧
    writeSnapshots 99 [⟨"T", [⟨510000, 10000000, 7⟩, ⟨500000, 20000000, 7⟩], []⟩] =
      if claimRows 99 [⟨"T", [⟨510000, 10000000, 7⟩, ⟨500000, 20000000, 7⟩], []⟩] = []
      then none
      else some (claimRows 99 [⟨"T", [⟨510000, 10000000, 7⟩, ⟨500000, 20000000, 7⟩], []⟩]) :=
  ⟨by decide,
    writeSnapshots_matches_claim 99
      [⟨"T", [⟨510000, 10000000, 7⟩, ⟨500000, 20000000, 7⟩], []⟩] (by decide)⟩

/-- Claim C8: evaluation of a pagination run in which a received
`next_cursor` ("bad") fails base64 decoding — the CLOB `GetAllMarkets`
discards the decode error, keeps paginating past the bad cursor and returns
`ok` with the accumulated markets, instead of returning an error as the
claim requires; the Kalshi client running against the same decoder surfaces
the error. -/
theorem clob_swallows_cursor_decode_error :
    (c8Decode "bad").2.isSome = true ∧
    clobGetAllMarkets c8Fetch c8Decode 5 =
      .ok [⟨"m1", "d1"⟩, ⟨"m2", "d2"⟩, ⟨"m3", "d3"⟩] ∧
    kalshiGetAllMarkets c8KalshiFetch c8Decode 5 =
      .error "couldnt decode next cursor: illegal base64 data" := by
  refine ⟨rfl, rfl, rfl⟩

end PredictionMarkets
